import Mathlib

/-!
Verification of the Scrapping-dashboard job scheduler, proxy rotation engine,
circuit breaker and URL normalizer against their natural-language specification.

The Python sources are shallowly embedded: the relational `queue` and `proxies`
tables become lists of records, timestamps become natural-number ticks
(minutes for the scheduler, whose retry interval is expressed in minutes;
seconds for the breaker and proxy cooldowns), SQL `NULL` becomes `Option`,
and SQL float columns that are only ever compared (never combined by
floating-point arithmetic) become exact numerator/denominator pairs.
-/

/-! ## Job queue / scheduler (src/orchestration/scheduler.py) -/

/-- Job status values of the `queue.status` column. -/
inductive JobStatus where
  | pending
  | in_progress
  | done
  | failed
deriving DecidableEq, Repr

/-- A row of the `queue` table, restricted to the columns the scheduler reads
or writes. -/
structure Job where
  id : Nat
  status : JobStatus
  priority : Nat
  retry_count : Nat
  max_retries : Nat
  next_retry_at : Option Nat
  last_error : Option String
  created_at : Nat
  updated_at : Nat
  deleted_at : Option Nat
  execution_time_seconds : Option Nat
  contacts_extracted : Option Nat
deriving DecidableEq, Repr

/-- The WHERE clause of `ScrapingScheduler.get_pending_jobs`:
`status = 'pending' AND deleted_at IS NULL AND (next_retry_at IS NULL OR
next_retry_at <= NOW())`.  Note that `retry_count < max_retries` is absent. -/
def pendingWhere (now : Nat) (j : Job) : Bool :=
  decide (j.status = JobStatus.pending) &&
  decide (j.deleted_at = none) &&
  (match j.next_retry_at with
   | none => true
   | some t => decide (t ≤ now))

/-- Sort key of the ORDER BY clause of `get_pending_jobs`:
`priority ASC, retry_count ASC, created_at ASC`. -/
def jobKey (j : Job) : Lex (Nat × Lex (Nat × Nat)) :=
  toLex (j.priority, toLex (j.retry_count, j.created_at))

/-- The SQL ordering of `get_pending_jobs` as a relation on rows. -/
def jobLe (a b : Job) : Prop := jobKey a ≤ jobKey b

instance : DecidableRel jobLe :=
  fun a b => inferInstanceAs (Decidable (jobKey a ≤ jobKey b))

instance : IsTotal Job jobLe := ⟨fun a b => le_total (jobKey a) (jobKey b)⟩

instance : IsTrans Job jobLe := ⟨fun _ _ _ h1 h2 => le_trans h1 h2⟩

/-- `ScrapingScheduler.get_pending_jobs`: if no slot is free
(`available_slots <= 0`) return no rows without querying; otherwise run the
SELECT above, ordered and limited to the free slots. -/
def get_pending_jobs (db : List Job) (now : Nat)
    (maxConcurrent runningCount : Nat) : List Job :=
  if runningCount < maxConcurrent then
    (List.insertionSort jobLe (db.filter (pendingWhere now))).take
      (maxConcurrent - runningCount)
  else []

/-- Python truthiness of the `error_message` argument (`if error_message:`):
`None` and the empty string are falsy. -/
def errTruthy (e : Option String) : Bool :=
  match e with
  | none => false
  | some s => !(s == "")

/-- Per-row effect of the UPDATE of `ScrapingScheduler.update_job_status` on
the row `id = jobId`.  Always writes `status` and `updated_at`; writes
`last_error` only when `error_message` is truthy; writes the execution time
and contacts count only when supplied; and only when the new status is
`'failed'` additionally performs the retry bookkeeping
`retry_count = retry_count + 1`,
`next_retry_at = NOW() + INTERVAL retry_delay_minutes`. -/
def applyJobUpdate (now retryDelayMinutes : Nat) (jobId : Nat)
    (status : JobStatus) (errorMessage : Option String)
    (executionTime contactsCount : Option Nat) (j : Job) : Job :=
  if j.id = jobId then
    let j1 := { j with status := status, updated_at := now }
    let j2 := if errTruthy errorMessage then
        { j1 with last_error := errorMessage } else j1
    let j3 := match executionTime with
      | some t => { j2 with execution_time_seconds := some t }
      | none => j2
    let j4 := match contactsCount with
      | some c => { j3 with contacts_extracted := some c }
      | none => j3
    if status = JobStatus.failed then
      { j4 with retry_count := j4.retry_count + 1,
                next_retry_at := some (now + retryDelayMinutes) }
    else j4
  else j

/-- The whole UPDATE: the row function above applied to every row (SQL
`WHERE id = %s` selects inside `applyJobUpdate`). -/
def update_job_status (db : List Job) (now retryDelayMinutes : Nat)
    (jobId : Nat) (status : JobStatus) (errorMessage : Option String)
    (executionTime contactsCount : Option Nat) : List Job :=
  db.map (applyJobUpdate now retryDelayMinutes jobId status errorMessage
    executionTime contactsCount)

/-- ASCII lower-casing of one character, as `str.lower` acts on ASCII. -/
def asciiLower (c : Char) : Char :=
  if 'A' ≤ c ∧ c ≤ 'Z' then Char.ofNat (c.toNat + 32) else c

/-- Lower-case a character list. -/
def lowerChars (l : List Char) : List Char := l.map asciiLower

/-- Whether `needle` is an initial segment of `hay`. -/
def leadsChars : List Char → List Char → Bool
  | [], _ => true
  | _ :: _, [] => false
  | a :: as, b :: bs => a == b && leadsChars as bs

/-- Whether `needle` occurs contiguously inside `hay`. -/
def containsChars (needle : List Char) : List Char → Bool
  | [] => leadsChars needle []
  | c :: rest => leadsChars needle (c :: rest) || containsChars needle rest

/-- The `'timeout' not in str(error).lower()` test of `_job_worker`, stated
positively: whether the error text contains the substring timeout after
lower-casing. -/
def hasTimeoutText (s : String) : Bool :=
  containsChars "timeout".data (lowerChars s.data)

/-- Outcome dictionary returned by `ScrapingScheduler.execute_spider`. -/
structure SpiderResult where
  success : Bool
  execution_time : Option Nat
  error : Option String
  contacts_count : Option Nat
deriving Repr

/-- `ScrapingScheduler._job_worker` after the spider returns: on success mark
the job done with its execution time and contacts count; on failure compute
`should_retry = retry_count < max_retries and 'timeout' not in error`, from the
job dictionary captured at selection time, and set the status to `'pending'`
or `'failed'` accordingly, with the error text. -/
def job_worker (db : List Job) (now retryDelayMinutes : Nat) (job : Job)
    (result : SpiderResult) : List Job :=
  if result.success then
    update_job_status db now retryDelayMinutes job.id JobStatus.done none
      result.execution_time (some (result.contacts_count.getD 0))
  else
    let err := result.error.getD ""
    let shouldRetry :=
      decide (job.retry_count < job.max_retries) && !(hasTimeoutText err)
    let status := if shouldRetry then JobStatus.pending else JobStatus.failed
    update_job_status db now retryDelayMinutes job.id status (some err)
      result.execution_time none

/-- `ScrapingScheduler._start_job_thread` marks one selected job as
`'in_progress'` through `update_job_status` (a transaction separate from the
SELECT of `get_pending_jobs`). -/
def start_job (db : List Job) (now retryDelayMinutes : Nat) (job : Job) :
    List Job :=
  update_job_status db now retryDelayMinutes job.id JobStatus.in_progress
    none none none

/-- Marking every job of a selection in turn, as the dispatch loop of
`process_jobs` does. -/
def start_jobs (db : List Job) (now retryDelayMinutes : Nat)
    (jobs : List Job) : List Job :=
  jobs.foldl (fun d j => start_job d now retryDelayMinutes j) db

/-! ## Two concurrent scheduler processes

`get_pending_jobs` is a plain SELECT and the `'in_progress'` transition is a
separate UPDATE (`_start_job_thread`), each committed by its own
`execute_query` transaction, with no `FOR UPDATE` / `SKIP LOCKED` clause.  Two
scheduler processes running `process_jobs` against the same queue therefore
interleave at transaction granularity.  The trace semantics below makes each
SELECT and each marking loop one atomic step, which is exactly the atomicity
the code provides. -/

/-- One atomic database step of one of two concurrent scheduler processes:
its SELECT (`get_pending_jobs`) or its marking loop (`_start_job_thread`
over the selection). -/
inductive ClaimStep where
  | selectA
  | selectB
  | markA
  | markB
deriving DecidableEq, Repr

/-- Joint state of the queue and the two callers' received selections. -/
structure TwoSched where
  db : List Job
  selA : Option (List Job)
  selB : Option (List Job)
deriving Repr

/-- Effect of one step on the joint state. -/
def stepClaim (now retryDelayMinutes maxConcurrent : Nat) (s : TwoSched) :
    ClaimStep → TwoSched
  | ClaimStep.selectA =>
      { s with selA := some (get_pending_jobs s.db now maxConcurrent 0) }
  | ClaimStep.selectB =>
      { s with selB := some (get_pending_jobs s.db now maxConcurrent 0) }
  | ClaimStep.markA =>
      match s.selA with
      | some jobs => { s with db := start_jobs s.db now retryDelayMinutes jobs }
      | none => s
  | ClaimStep.markB =>
      match s.selB with
      | some jobs => { s with db := start_jobs s.db now retryDelayMinutes jobs }
      | none => s

/-- Run an interleaving of the two callers' steps. -/
def runClaim (now retryDelayMinutes maxConcurrent : Nat) (db : List Job)
    (trace : List ClaimStep) : TwoSched :=
  trace.foldl (stepClaim now retryDelayMinutes maxConcurrent)
    { db := db, selA := none, selB := none }

/-- Job ids of a caller's received selection. -/
def selIds (sel : Option (List Job)) : List Nat :=
  (sel.getD []).map Job.id

/-! ## Pause control (`ScrapingScheduler.process_jobs`, lines 324-365)

`process_jobs` first returns early when the in-memory `scheduler_paused` flag
is set; only otherwise does it read the durable `settings.scheduler_paused`
value, pausing when that value lower-cases to the string true and clearing the
in-memory flag otherwise. -/

/-- One poll cycle of the pause logic of `process_jobs`.  `dbFlag` is the
`settings.scheduler_paused` row (`none` when absent).  Returns the new
in-memory flag and whether the cycle went on to claim jobs. -/
def pauseGate (memPaused : Bool) (dbFlag : Option String) : Bool × Bool :=
  if memPaused then (memPaused, false)
  else
    match dbFlag with
    | some v =>
        if lowerChars v.data == "true".data then (true, false)
        else (false, true)
    | none => (false, true)

/-- Run consecutive poll cycles over a sequence of durable flag values,
returning the final in-memory flag and, per cycle, whether claiming was
attempted. -/
def pauseCycles (memPaused : Bool) : List (Option String) → Bool × List Bool
  | [] => (memPaused, [])
  | f :: rest =>
      let r := pauseGate memPaused f
      let rec' := pauseCycles r.1 rest
      (rec'.1, r.2 :: rec'.2)

/-! ## Circuit breaker (src/scraper/utils/circuit_breaker.py and
src/scraper/utils/proxy_failover.py)

The breaker state lives in two TTL-bound coordination-store keys per resource:
a failure counter (`...:fails`, re-expired on every failure) and an open
marker (`cb:...:open`, set with the cooldown as expiry).  A key is modelled as
its value paired with its absolute expiry instant; a key is alive at `now`
iff `now` is before that instant, which is exactly when its remaining TTL is
positive. -/

/-- Coordination-store state backing one resource's breaker. -/
structure Breaker where
  fails : Option (Nat × Nat)
  openUntil : Option Nat
deriving DecidableEq, Repr

/-- `circuit_breaker.is_open`: the open marker's TTL is still positive. -/
def is_open (s : Breaker) (now : Nat) : Bool :=
  match s.openUntil with
  | some t => decide (now < t)
  | none => false

/-- `circuit_breaker.open_cb`: set the open marker with the cooldown as
expiry. -/
def open_cb (s : Breaker) (now cooldownSeconds : Nat) : Breaker :=
  { s with openUntil := some (now + cooldownSeconds) }

/-- `circuit_breaker.record_failure`: open the breaker when the reported
failure count has reached the threshold. -/
def record_failure (s : Breaker) (now : Nat)
    (failures maxFailures cooldownSeconds : Nat) : Breaker :=
  if failures ≥ maxFailures then open_cb s now cooldownSeconds else s

/-- `proxy_failover.report_result`: a success deletes the failure counter; a
failure increments it (a counter whose TTL has expired restarts from zero),
re-sets its expiry to the cooldown, and feeds the new count to
`record_failure`. -/
def report_result (s : Breaker) (now : Nat) (success : Bool)
    (maxFailures cooldownSeconds : Nat) : Breaker :=
  if success then { s with fails := none }
  else
    let n := (match s.fails with
      | some (c, e) => if now < e then c else 0
      | none => 0) + 1
    let s1 := { s with fails := some (n, now + cooldownSeconds) }
    record_failure s1 now n maxFailures cooldownSeconds

/-- `n` consecutive failures reported at the same instant. -/
def reportFailures (s : Breaker) (now : Nat)
    (maxFailures cooldownSeconds : Nat) : Nat → Breaker
  | 0 => s
  | n + 1 =>
      report_result (reportFailures s now maxFailures cooldownSeconds n)
        now false maxFailures cooldownSeconds

/-! ## Proxy rotation engine (src/scraper/utils/proxy_selector.py and
src/scraper/utils/proxy.py)

The float column `success_rate` is only ever compared or rebuilt as a
quotient of two integer counters, never combined by floating-point
arithmetic, so it is embedded as an exact numerator/denominator pair ordered
by cross-multiplication. -/

/-- Values of the `proxies.circuit_breaker_status` column. -/
inductive CBStatus where
  | closed
  | half_open
  | open_
deriving DecidableEq, Repr

/-- A row of the `proxies` table, restricted to the columns the selector and
the outcome reporter read or write.  `success_rate` is a numerator/denominator
pair. -/
structure ProxyRow where
  id : Nat
  active : Bool
  priority : Nat
  success_rate : Option (Nat × Nat)
  response_time_ms : Option Nat
  average_latency_ms : Option Nat
  last_used_at : Option Nat
  consecutive_failures : Option Nat
  cooldown_until : Option Nat
  circuit_breaker_status : CBStatus
  circuit_breaker_next_attempt : Option Nat
  successful_requests : Option Nat
  failed_requests : Option Nat
  total_requests : Option Nat
  last_success_at : Option Nat
  last_failure_at : Option Nat
deriving DecidableEq, Repr

/-- The WHERE clause of `fetch_active_proxies` (proxy_selector.py):
`active = true AND (cooldown_until IS NULL OR cooldown_until < NOW()) AND
(circuit_breaker_status != 'open' OR circuit_breaker_next_attempt < NOW())`;
a NULL `circuit_breaker_next_attempt` makes the second disjunct unknown,
which WHERE treats as false. -/
def selectableWhere (now : Nat) (p : ProxyRow) : Bool :=
  p.active &&
  (match p.cooldown_until with
   | none => true
   | some t => decide (t < now)) &&
  (decide (p.circuit_breaker_status ≠ CBStatus.open_) ||
   (match p.circuit_breaker_next_attempt with
    | some t => decide (t < now)
    | none => false))

/-- The leading sort expression of `fetch_active_proxies`:
`CASE WHEN circuit_breaker_status = 'closed' THEN 1 WHEN 'half_open' THEN 2
ELSE 3 END`. -/
def cbRank (p : ProxyRow) : Nat :=
  match p.circuit_breaker_status with
  | CBStatus.closed => 1
  | CBStatus.half_open => 2
  | CBStatus.open_ => 3

/-- `COALESCE(success_rate, 1.0)` as a positive-denominator fraction.  A zero
denominator cannot arise from the embedded writers; the guard keeps the
denominator positive on all of the type. -/
def rateKey (p : ProxyRow) : Nat × Nat :=
  match p.success_rate with
  | some (n, d) => if d = 0 then (n, 1) else (n, d)
  | none => (1, 1)

/-- `COALESCE(average_latency_ms, response_time_ms, 1000)`. -/
def latKey (p : ProxyRow) : Nat :=
  match p.average_latency_ms with
  | some a => a
  | none =>
      match p.response_time_ms with
      | some r => r
      | none => 1000

/-- `COALESCE(last_used_at, epoch)`. -/
def luKey (p : ProxyRow) : Nat := p.last_used_at.getD 0

/-- Combined first two sort keys (breaker-status rank, then priority),
lexicographically. -/
def headKey (p : ProxyRow) : Lex (Nat × Nat) := toLex (cbRank p, p.priority)

/-- Combined last two sort keys (latency ascending, then least recently
used), lexicographically. -/
def tailKey (p : ProxyRow) : Lex (Nat × Nat) := toLex (latKey p, luKey p)

/-- Success rate of `a` strictly greater than that of `b` (the DESC key),
by cross-multiplication. -/
def rateGtB (a b : ProxyRow) : Prop :=
  (rateKey b).1 * (rateKey a).2 < (rateKey a).1 * (rateKey b).2

/-- Equal success rates, by cross-multiplication. -/
def rateEqv (a b : ProxyRow) : Prop :=
  (rateKey a).1 * (rateKey b).2 = (rateKey b).1 * (rateKey a).2

/-- The full ORDER BY of `fetch_active_proxies` (proxy_selector.py) as a
relation: breaker-status rank, priority ascending, success rate descending,
latency ascending, least recently used first. -/
def proxyLe (a b : ProxyRow) : Prop :=
  headKey a < headKey b ∨
  (headKey a = headKey b ∧
    (rateGtB a b ∨ (rateEqv a b ∧ tailKey a ≤ tailKey b)))

instance : DecidableRel proxyLe := fun a b => by
  unfold proxyLe rateGtB rateEqv
  infer_instance

theorem rateKey_den_pos (p : ProxyRow) : 0 < (rateKey p).2 := by
  unfold rateKey
  rcases p.success_rate with _ | ⟨n, d⟩
  · exact Nat.one_pos
  · by_cases h : d = 0 <;> simp [h] <;> omega


theorem cross_lt_trans {n1 d1 n2 d2 n3 d3 : Nat} (hd2 : 0 < d2)
    (hd3 : 0 < d3) (h1 : n2 * d1 < n1 * d2) (h2 : n3 * d2 < n2 * d3) :
    n3 * d1 < n1 * d3 := by
  have step : n3 * d1 * d2 < n1 * d3 * d2 := by
    calc n3 * d1 * d2 = n3 * d2 * d1 := by ring
    _ ≤ n2 * d3 * d1 := Nat.mul_le_mul_right d1 (Nat.le_of_lt h2)
    _ = n2 * d1 * d3 := by ring
    _ < n1 * d2 * d3 := Nat.mul_lt_mul_of_lt_of_le h1 (Nat.le_refl d3) hd3
    _ = n1 * d3 * d2 := by ring
  exact lt_of_mul_lt_mul_right step (Nat.zero_le d2)

theorem cross_eq_trans {n1 d1 n2 d2 n3 d3 : Nat} (hd2 : 0 < d2)
    (h1 : n1 * d2 = n2 * d1) (h2 : n2 * d3 = n3 * d2) :
    n1 * d3 = n3 * d1 := by
  have step : n1 * d3 * d2 = n3 * d1 * d2 := by
    calc n1 * d3 * d2 = n1 * d2 * d3 := by ring
    _ = n2 * d1 * d3 := by rw [h1]
    _ = n2 * d3 * d1 := by ring
    _ = n3 * d2 * d1 := by rw [h2]
    _ = n3 * d1 * d2 := by ring
  exact Nat.eq_of_mul_eq_mul_right hd2 step

theorem cross_lt_of_lt_of_eq {n1 d1 n2 d2 n3 d3 : Nat} (hd2 : 0 < d2)
    (hd3 : 0 < d3) (h1 : n2 * d1 < n1 * d2) (h2 : n2 * d3 = n3 * d2) :
    n3 * d1 < n1 * d3 := by
  have step : n3 * d1 * d2 < n1 * d3 * d2 := by
    calc n3 * d1 * d2 = n3 * d2 * d1 := by ring
    _ = n2 * d3 * d1 := by rw [h2]
    _ = n2 * d1 * d3 := by ring
    _ < n1 * d2 * d3 := Nat.mul_lt_mul_of_lt_of_le h1 (Nat.le_refl d3) hd3
    _ = n1 * d3 * d2 := by ring
  exact lt_of_mul_lt_mul_right step (Nat.zero_le d2)

theorem cross_lt_of_eq_of_lt {n1 d1 n2 d2 n3 d3 : Nat} (hd1 : 0 < d1)
    (hd2 : 0 < d2) (h1 : n1 * d2 = n2 * d1) (h2 : n3 * d2 < n2 * d3) :
    n3 * d1 < n1 * d3 := by
  have step : n3 * d1 * d2 < n1 * d3 * d2 := by
    calc n3 * d1 * d2 = n3 * d2 * d1 := by ring
    _ < n2 * d3 * d1 := Nat.mul_lt_mul_of_lt_of_le h2 (Nat.le_refl d1) hd1
    _ = n2 * d1 * d3 := by ring
    _ = n1 * d2 * d3 := by rw [h1]
    _ = n1 * d3 * d2 := by ring
  exact lt_of_mul_lt_mul_right step (Nat.zero_le d2)

theorem proxyLe_total (a b : ProxyRow) : proxyLe a b ∨ proxyLe b a := by
  unfold proxyLe rateGtB rateEqv
  rcases lt_trichotomy (headKey a) (headKey b) with h | h | h
  · exact Or.inl (Or.inl h)
  · rcases Nat.lt_trichotomy ((rateKey a).1 * (rateKey b).2)
        ((rateKey b).1 * (rateKey a).2) with hr | hr | hr
    · exact Or.inr (Or.inr ⟨h.symm, Or.inl hr⟩)
    · rcases le_total (tailKey a) (tailKey b) with ht | ht
      · exact Or.inl (Or.inr ⟨h, Or.inr ⟨hr, ht⟩⟩)
      · exact Or.inr (Or.inr ⟨h.symm, Or.inr ⟨hr.symm, ht⟩⟩)
    · exact Or.inl (Or.inr ⟨h, Or.inl hr⟩)
  · exact Or.inr (Or.inl h)

theorem proxyLe_trans (a b c : ProxyRow) (h1 : proxyLe a b)
    (h2 : proxyLe b c) : proxyLe a c := by
  have pa := rateKey_den_pos a
  have pb := rateKey_den_pos b
  have pc := rateKey_den_pos c
  unfold proxyLe rateGtB rateEqv at h1 h2 ⊢
  rcases h1 with h1 | ⟨he1, hr1⟩
  · rcases h2 with h2 | ⟨he2, hr2⟩
    · exact Or.inl (lt_trans h1 h2)
    · exact Or.inl (lt_of_lt_of_le h1 (le_of_eq he2))
  · rcases h2 with h2 | ⟨he2, hr2⟩
    · exact Or.inl (lt_of_le_of_lt (le_of_eq he1) h2)
    · refine Or.inr ⟨he1.trans he2, ?_⟩
      rcases hr1 with hr1 | ⟨heq1, ht1⟩
      · rcases hr2 with hr2 | ⟨heq2, ht2⟩
        · exact Or.inl (cross_lt_trans pb pc hr1 hr2)
        · exact Or.inl (cross_lt_of_lt_of_eq pb pc hr1 heq2)
      · rcases hr2 with hr2 | ⟨heq2, ht2⟩
        · exact Or.inl (cross_lt_of_eq_of_lt pa pb heq1 hr2)
        · exact Or.inr ⟨cross_eq_trans pb heq1 heq2, le_trans ht1 ht2⟩

instance : IsTotal ProxyRow proxyLe := ⟨proxyLe_total⟩

instance : IsTrans ProxyRow proxyLe := ⟨proxyLe_trans⟩

/-- `fetch_active_proxies` of proxy_selector.py: the filtered rows in the
ORDER BY order above. -/
def fetch_active_proxies (db : List ProxyRow) (now : Nat) : List ProxyRow :=
  List.insertionSort proxyLe (db.filter (selectableWhere now))

/-- Modelled from the spec (claim wording): a proxy is selectable iff
`active = true`, `cooldown_until` absent or in the past, and the circuit
breaker is not open. -/
def spec_selectable (now : Nat) (p : ProxyRow) : Bool :=
  p.active &&
  (match p.cooldown_until with
   | none => true
   | some t => decide (t < now)) &&
  decide (p.circuit_breaker_status ≠ CBStatus.open_)

/-- Modelled from the spec (claim wording): sorted by priority, then
success_rate descending, then latency ascending, then least recently used —
with no leading breaker-status key. -/
def spec_proxy_le (a b : ProxyRow) : Prop :=
  a.priority < b.priority ∨
  (a.priority = b.priority ∧
    (rateGtB a b ∨ (rateEqv a b ∧ tailKey a ≤ tailKey b)))

instance : DecidableRel spec_proxy_le := fun a b => by
  unfold spec_proxy_le rateGtB rateEqv
  infer_instance

/-- Modelled from the spec (claim wording): `fetch_candidates` as the claim
describes it. -/
def spec_fetch_candidates (db : List ProxyRow) (now : Nat) : List ProxyRow :=
  List.insertionSort spec_proxy_le (db.filter (spec_selectable now))

/-- `report_proxy_result` of proxy.py: one UPDATE of the proxy row.  Inside a
single SQL UPDATE every column reference on a right-hand side reads the OLD
row value, so the recomputed `success_rate` uses the pre-update counters and
the `CASE WHEN consecutive_failures >= threshold` guard of the failure branch
reads the pre-increment failure count; a NULL in a comparison makes the CASE
fall through to ELSE. -/
def report_proxy_result (p : ProxyRow) (success : Bool)
    (response_time : Option Nat) (now maxFailures cooldownSeconds : Nat) :
    ProxyRow :=
  if success then
    { p with
      successful_requests := some (p.successful_requests.getD 0 + 1),
      consecutive_failures := some 0,
      last_success_at := some now,
      response_time_ms :=
        match response_time with
        | some t => some t
        | none => p.response_time_ms,
      success_rate :=
        match p.total_requests with
        | some t =>
            if 0 < t then
              match p.successful_requests with
              | some s => some (s, t)
              | none => none
            else some (1, 1)
        | none => some (1, 1) }
  else
    { p with
      failed_requests := some (p.failed_requests.getD 0 + 1),
      consecutive_failures := some (p.consecutive_failures.getD 0 + 1),
      last_failure_at := some now,
      success_rate :=
        match p.total_requests with
        | some t =>
            if 0 < t then some (p.successful_requests.getD 0, t)
            else some (1, 2)
        | none => some (1, 2),
      cooldown_until :=
        match p.consecutive_failures with
        | some c =>
            if c ≥ maxFailures then some (now + cooldownSeconds)
            else p.cooldown_until
        | none => p.cooldown_until }

/-! ## URL normalization (src/scraper/utils/url_normalizer.py)

`normalize` is built on the stdlib `urlparse` / `parse_qsl` / `urlencode` /
`urlunparse`.  Strings are embedded as character lists; the stdlib helpers
are embedded for the fragment of their behaviour the normalizer exercises:
absolute URLs (the parser handles a leading `scheme:` and an authority
introduced by two slashes; path-segment parameters split on semicolons are
not modelled, and `normalize` discards them anyway), and percent codecs
acting byte-wise on ASCII (multi-byte UTF-8 percent sequences are outside the
modelled fragment). -/

/-- The five components `urlparse` produces that `normalize` consumes. -/
structure UrlParts where
  scheme : List Char
  netloc : List Char
  path : List Char
  query : List Char
  fragment : List Char
deriving DecidableEq, Repr

/-- Split a list at the first occurrence of `c` (the separator is dropped),
or `none` when `c` does not occur. -/
def splitAtFirst (c : Char) : List Char → Option (List Char × List Char)
  | [] => none
  | x :: xs =>
      if x == c then some ([], xs)
      else
        match splitAtFirst c xs with
        | some (a, b) => some (x :: a, b)
        | none => none

/-- Characters allowed in a URL scheme after the leading letter. -/
def isSchemeChar (c : Char) : Bool :=
  c.isAlpha || c.isDigit || c == '+' || c == '-' || c == '.'

/-- Netloc of an authority part: everything before the first slash. -/
def takeNetloc (l : List Char) : List Char := l.takeWhile (fun c => !(c == '/'))

/-- Path after an authority part: from the first slash on. -/
def dropNetloc (l : List Char) : List Char := l.dropWhile (fun c => !(c == '/'))

/-- `urllib.parse.urlparse` on an absolute URL: an initial `scheme:` is split
off (when the candidate starts with a letter and uses only scheme
characters) and lower-cased; the fragment is everything after the first
hash; the query everything after the first question mark before that; a
part starting with two slashes carries the netloc up to the next slash. -/
def urlparse0 (url : List Char) : UrlParts :=
  let sr :=
    match splitAtFirst ':' url with
    | some (before, after) =>
        match before with
        | [] => (([] : List Char), url)
        | c :: cs =>
            if c.isAlpha && (c :: cs).all isSchemeChar then
              (lowerChars (c :: cs), after)
            else ([], url)
    | none => ([], url)
  let fr :=
    match splitAtFirst '#' sr.2 with
    | some (a, b) => (a, b)
    | none => (sr.2, ([] : List Char))
  let qr :=
    match splitAtFirst '?' fr.1 with
    | some (a, b) => (a, b)
    | none => (fr.1, ([] : List Char))
  let np :=
    match qr.1 with
    | '/' :: '/' :: r => (takeNetloc r, dropNetloc r)
    | _ => (([] : List Char), qr.1)
  { scheme := sr.1, netloc := np.1, path := np.2,
    query := qr.2, fragment := fr.2 }

/-- Split on every occurrence of the separator (as Python `str.split`). -/
def splitAllAux (c : Char) : List Char → List Char → List (List Char)
  | [], acc => [acc.reverse]
  | x :: xs, acc =>
      if x == c then acc.reverse :: splitAllAux c xs []
      else splitAllAux c xs (x :: acc)

/-- `str.split(sep)` on character lists. -/
def splitAll (c : Char) (l : List Char) : List (List Char) :=
  splitAllAux c l []

/-- Value of one hexadecimal digit, if any. -/
def hexVal (c : Char) : Option Nat :=
  if '0' ≤ c ∧ c ≤ '9' then some (c.toNat - 48)
  else if 'a' ≤ c ∧ c ≤ 'f' then some (c.toNat - 87)
  else if 'A' ≤ c ∧ c ≤ 'F' then some (c.toNat - 55)
  else none

/-- `urllib.parse.unquote_plus` on the ASCII fragment: plus becomes space,
a percent sign followed by two hex digits below 0x80 decodes to that
character, and anything else passes through. -/
def unquotePlus : List Char → List Char
  | [] => []
  | '%' :: a :: b :: rest =>
      (match hexVal a, hexVal b with
       | some x, some y =>
           if x * 16 + y < 128 then Char.ofNat (x * 16 + y) :: unquotePlus rest
           else '%' :: unquotePlus (a :: b :: rest)
       | _, _ => '%' :: unquotePlus (a :: b :: rest))
  | '+' :: rest => ' ' :: unquotePlus rest
  | c :: rest => c :: unquotePlus rest

/-- `urllib.parse.parse_qsl` with `keep_blank_values=True`: split the query
on ampersands, skip empty segments, split each segment at its first equals
sign (a segment without one yields a blank value), and percent-decode both
sides. -/
def parse_qsl (q : List Char) : List (List Char × List Char) :=
  (splitAll '&' q).filterMap fun seg =>
    match seg with
    | [] => none
    | _ :: _ =>
        match splitAtFirst '=' seg with
        | some (k, v) => some (unquotePlus k, unquotePlus v)
        | none => some (unquotePlus seg, [])

/-- Upper-case hexadecimal digit of a value below 16. -/
def hexDigit (n : Nat) : Char :=
  if n < 10 then Char.ofNat (48 + n) else Char.ofNat (55 + n)

/-- `urllib.parse.quote_plus` on one character: letters, digits and
underscore, dot, dash, tilde pass through, space becomes plus, anything
else is percent-encoded byte-wise. -/
def quotePlusChar (c : Char) : List Char :=
  if c.isAlpha || c.isDigit || c == '_' || c == '.' || c == '-' || c == '~'
  then [c]
  else if c == ' ' then ['+']
  else
    let n := c.toNat % 256
    ['%', hexDigit (n / 16), hexDigit (n % 16)]

/-- `quote_plus` on a character list. -/
def quotePlus (l : List Char) : List Char := (l.map quotePlusChar).join

/-- Join pieces with a separator character. -/
def joinSep (c : Char) : List (List Char) → List Char
  | [] => []
  | [x] => x
  | x :: y :: rest => x ++ c :: joinSep c (y :: rest)

/-- `urllib.parse.urlencode` on an explicit pair list: each pair becomes
quoted key, equals sign, quoted value, joined by ampersands. -/
def urlencode (ps : List (List Char × List Char)) : List Char :=
  joinSep '&' (ps.map fun p => quotePlus p.1 ++ '=' :: quotePlus p.2)

/-- Ordering used by Python `sorted` on the decoded pairs: lexicographic on
the pair, strings compared by code point. -/
def pairLe (p q : List Char × List Char) : Prop := toLex p ≤ toLex q

instance : DecidableRel pairLe :=
  fun p q => inferInstanceAs (Decidable (toLex p ≤ toLex q))

instance : IsTotal (List Char × List Char) pairLe :=
  ⟨fun p q => le_total (toLex p) (toLex q)⟩

instance : IsTrans (List Char × List Char) pairLe :=
  ⟨fun _ _ _ h1 h2 => le_trans h1 h2⟩

instance : IsAntisymm (List Char × List Char) pairLe :=
  ⟨fun p q h1 h2 => congrArg ofLex (le_antisymm h1 h2)⟩

/-- Component step of `normalize`: lower-case the scheme (empty falls back
to http), lower-case the netloc, default an empty path to a single slash,
re-encode the query pairs sorted, and drop params and fragment. -/
def normalizeParts (u : UrlParts) : UrlParts :=
  { scheme :=
      (match lowerChars u.scheme with
       | [] => "http".data
       | c :: cs => c :: cs),
    netloc := lowerChars u.netloc,
    path := (match u.path with
             | [] => ['/']
             | c :: cs => c :: cs),
    query := urlencode (List.insertionSort pairLe (parse_qsl u.query)),
    fragment := [] }

/-- `urllib.parse.urlunparse` on (scheme, netloc, path, no params, query,
no fragment): an authority (or a path beginning with two slashes) is
prefixed by two slashes and separates the path by a slash; a scheme is
prefixed with a colon; a nonempty query is appended after a question
mark. -/
def urlunparse0 (scheme netloc path query : List Char) : List Char :=
  let url :=
    if netloc ≠ [] ∨ leadsChars "//".data path = true then
      '/' :: '/' :: netloc ++
        (match path with
         | [] => []
         | c :: cs => if c = '/' then c :: cs else '/' :: c :: cs)
    else path
  let url2 := if scheme ≠ [] then scheme ++ ':' :: url else url
  if query ≠ [] then url2 ++ '?' :: query else url2

/-- `url_normalizer.normalize`: the empty URL is returned unchanged,
otherwise parse, normalize the components, and reassemble. -/
def url_normalize (url : List Char) : List Char :=
  match url with
  | [] => url
  | _ :: _ =>
      let p := normalizeParts (urlparse0 url)
      urlunparse0 p.scheme p.netloc p.path p.query

/-- `normalize` at the string boundary. -/
def url_normalizeStr (s : String) : String := ⟨url_normalize s.data⟩

/-! ## Row-level frame lemmas for the job UPDATE -/

theorem applyJobUpdate_id (now rd jid : Nat) (st : JobStatus)
    (em : Option String) (et ct : Option Nat) (j : Job) :
    (applyJobUpdate now rd jid st em et ct j).id = j.id := by
  unfold applyJobUpdate
  split
  · cases et <;> cases ct <;> split_ifs <;> rfl
  · rfl

theorem applyJobUpdate_not_target (now rd jid : Nat) (st : JobStatus)
    (em : Option String) (et ct : Option Nat) (j : Job) (h : j.id ≠ jid) :
    applyJobUpdate now rd jid st em et ct j = j := by
  unfold applyJobUpdate
  simp [h]

theorem applyJobUpdate_status (now rd jid : Nat) (st : JobStatus)
    (em : Option String) (et ct : Option Nat) (j : Job) (h : j.id = jid) :
    (applyJobUpdate now rd jid st em et ct j).status = st := by
  unfold applyJobUpdate
  simp only [h, if_true, if_pos]
  cases et <;> cases ct <;> split_ifs <;> rfl

theorem applyJobUpdate_updated_at (now rd jid : Nat) (st : JobStatus)
    (em : Option String) (et ct : Option Nat) (j : Job) (h : j.id = jid) :
    (applyJobUpdate now rd jid st em et ct j).updated_at = now := by
  unfold applyJobUpdate
  simp only [h, if_true, if_pos]
  cases et <;> cases ct <;> split_ifs <;> rfl

theorem applyJobUpdate_retry_of_ne_failed (now rd jid : Nat) (st : JobStatus)
    (em : Option String) (et ct : Option Nat) (j : Job)
    (h : st ≠ JobStatus.failed) :
    (applyJobUpdate now rd jid st em et ct j).retry_count = j.retry_count ∧
    (applyJobUpdate now rd jid st em et ct j).next_retry_at =
      j.next_retry_at := by
  unfold applyJobUpdate
  split
  · cases et <;> cases ct <;> split_ifs <;> simp_all
  · exact ⟨rfl, rfl⟩

theorem applyJobUpdate_retry_of_failed (now rd jid : Nat)
    (em : Option String) (et ct : Option Nat) (j : Job) (h : j.id = jid) :
    (applyJobUpdate now rd jid JobStatus.failed em et ct j).retry_count =
      j.retry_count + 1 ∧
    (applyJobUpdate now rd jid JobStatus.failed em et ct j).next_retry_at =
      some (now + rd) := by
  unfold applyJobUpdate
  simp only [h, if_true, if_pos]
  cases et <;> cases ct <;> split_ifs <;> simp_all

theorem applyJobUpdate_last_error_of_falsy (now rd jid : Nat)
    (st : JobStatus) (em : Option String) (et ct : Option Nat) (j : Job)
    (h : errTruthy em = false) :
    (applyJobUpdate now rd jid st em et ct j).last_error = j.last_error := by
  unfold applyJobUpdate
  split
  · cases et <;> cases ct <;> simp [h] <;> split_ifs <;> rfl
  · rfl

theorem applyJobUpdate_last_error_of_truthy (now rd jid : Nat)
    (st : JobStatus) (em : Option String) (et ct : Option Nat) (j : Job)
    (h : errTruthy em = true) (hid : j.id = jid) :
    (applyJobUpdate now rd jid st em et ct j).last_error = em := by
  unfold applyJobUpdate
  simp only [hid, if_true, if_pos]
  cases et <;> cases ct <;> simp [h] <;> split_ifs <;> rfl

/-! ## Claim support: eligibility and ordering of get_pending_jobs -/

theorem pendingWhere_iff (now : Nat) (j : Job) :
    pendingWhere now j = true ↔
    (j.status = JobStatus.pending ∧ j.deleted_at = none ∧
     ∀ t, j.next_retry_at = some t → t ≤ now) := by
  unfold pendingWhere
  rcases hn : j.next_retry_at with _ | t <;> simp [hn, and_assoc]

theorem sorted_head_min {l : List Job} (hs : List.Sorted jobLe l) {j : Job}
    (hj : j ∈ l) : ∃ h0, l.head? = some h0 ∧ jobLe h0 j := by
  cases l with
  | nil => cases hj
  | cons a t =>
      refine ⟨a, rfl, ?_⟩
      rcases List.mem_cons.mp hj with rfl | hj
      · exact le_refl (jobKey j)
      · exact (List.sorted_cons.mp hs).1 j hj

theorem head_take {α : Type} {l : List α} {n : Nat} (hn : 1 ≤ n) :
    (l.take n).head? = l.head? := by
  cases l <;> cases n <;> simp_all <;> omega

/-- Modelled from the spec (claim wording of C2): a job is eligible iff
status pending, retry_count below max_retries, not soft-deleted, and
next_retry_at absent or due. -/
def spec_eligible (now : Nat) (j : Job) : Bool :=
  decide (j.status = JobStatus.pending) &&
  decide (j.retry_count < j.max_retries) &&
  decide (j.deleted_at = none) &&
  (match j.next_retry_at with
   | none => true
   | some t => decide (t ≤ now))

/-- Modelled from the spec (claim wording of C2): the order
(priority ascending, retry_count ascending, id ascending). -/
def spec_job_le (a b : Job) : Prop :=
  toLex (a.priority, toLex (a.retry_count, a.id)) ≤
  toLex (b.priority, toLex (b.retry_count, b.id))

instance : DecidableRel spec_job_le := fun a b =>
  inferInstanceAs (Decidable (_ ≤ _))

/-- Modelled from the spec (claim wording of C2): claim_next_job picks the
minimum eligible job, or none. -/
def spec_claim_next_job (db : List Job) (now : Nat) : Option Job :=
  (List.insertionSort spec_job_le (db.filter (spec_eligible now))).head?

/-- A pending job past its retry budget: retry_count 5 with max_retries 3. -/
def cjobStuck : Job :=
  { id := 1
    status := JobStatus.pending
    priority := 0
    retry_count := 5
    max_retries := 3
    next_retry_at := none
    last_error := none
    created_at := 0
    updated_at := 0
    deleted_at := none
    execution_time_seconds := none
    contacts_extracted := none }

/-- Eligible job with the smaller id but the later creation time. -/
def cjobLate : Job := { cjobStuck with id := 1, retry_count := 0, created_at := 10 }

/-- Eligible job with the larger id but the earlier creation time. -/
def cjobEarly : Job := { cjobStuck with id := 2, retry_count := 0, created_at := 5 }

/-- C2 counterexample: the claim is false on the code in two ways.  A pending
job whose retry_count already exceeds max_retries is returned by
`get_pending_jobs` although the claimed eligibility invariant excludes it
(the WHERE clause never checks retry_count); and among two otherwise equal
eligible jobs the code orders by created_at where the claim orders by id, so
the job with the larger id but earlier creation time comes first. -/
theorem C2_counterexample :
    (get_pending_jobs [cjobStuck] 0 3 0 = [cjobStuck] ∧
     spec_eligible 0 cjobStuck = false ∧
     spec_claim_next_job [cjobStuck] 0 = none) ∧
    ((get_pending_jobs [cjobLate, cjobEarly] 0 3 0).map Job.id = [2, 1] ∧
     (spec_claim_next_job [cjobLate, cjobEarly] 0).map Job.id = some 1) := by
  decide

/-- C2 (amended): for every queue state, `get_pending_jobs` returns only jobs
with status pending, not soft-deleted, whose next_retry_at is absent or due
(retry_count is not restricted); the returned list is sorted by
(priority ascending, retry_count ascending, created_at ascending); the first
returned job is minimal under that order among all rows passing the WHERE
clause; and when no row passes, nothing is returned. -/
theorem C2_amended_characterization (db : List Job) (now mc run : Nat)
    (hrun : run < mc) :
    (∀ j, j ∈ get_pending_jobs db now mc run →
       j ∈ db ∧ j.status = JobStatus.pending ∧ j.deleted_at = none ∧
       (∀ t, j.next_retry_at = some t → t ≤ now)) ∧
    List.Sorted jobLe (get_pending_jobs db now mc run) ∧
    (∀ j, j ∈ db → pendingWhere now j = true →
       ∃ h0, (get_pending_jobs db now mc run).head? = some h0 ∧ jobLe h0 j) ∧
    ((∀ j, j ∈ db → pendingWhere now j = false) →
       get_pending_jobs db now mc run = []) := by
  unfold get_pending_jobs
  rw [if_pos hrun]
  refine ⟨?_, ?_, ?_, ?_⟩
  · intro j hj
    have hj1 : j ∈ List.insertionSort jobLe (db.filter (pendingWhere now)) :=
      List.mem_of_mem_take hj
    have hj2 : j ∈ db.filter (pendingWhere now) :=
      (List.mem_insertionSort jobLe).mp hj1
    have hj3 := List.mem_filter.mp hj2
    have hj4 := (pendingWhere_iff now j).mp hj3.2
    exact ⟨hj3.1, hj4⟩
  · exact List.Pairwise.sublist (List.take_sublist _ _)
      (List.sorted_insertionSort jobLe (db.filter (pendingWhere now)))
  · intro j hj hpw
    have hj2 : j ∈ List.insertionSort jobLe (db.filter (pendingWhere now)) :=
      (List.mem_insertionSort jobLe).mpr (List.mem_filter.mpr ⟨hj, hpw⟩)
    obtain ⟨h0, hh, hle⟩ := sorted_head_min
      (List.sorted_insertionSort jobLe (db.filter (pendingWhere now))) hj2
    refine ⟨h0, ?_, hle⟩
    rw [head_take (by omega)]
    exact hh
  · intro hall
    have : db.filter (pendingWhere now) = [] := by
      rw [List.filter_eq_nil_iff]
      intro a ha
      simp [hall a ha]
    rw [this]
    simp [List.insertionSort]

theorem mem_get_pending_jobs {db : List Job} {now mc run : Nat} {j : Job}
    (h : j ∈ get_pending_jobs db now mc run) :
    j ∈ db ∧ pendingWhere now j = true := by
  unfold get_pending_jobs at h
  split at h
  · have h1 : j ∈ List.insertionSort jobLe (db.filter (pendingWhere now)) :=
      List.mem_of_mem_take h
    have h2 : j ∈ db.filter (pendingWhere now) :=
      (List.mem_insertionSort jobLe).mp h1
    exact List.mem_filter.mp h2
  · cases h

theorem mem_start_jobs (now rd : Nat) :
    ∀ (S db : List Job) (j' : Job), j' ∈ start_jobs db now rd S →
      (j' ∈ db ∧ j'.id ∉ S.map Job.id) ∨
      j'.status = JobStatus.in_progress := by
  intro S
  induction S with
  | nil =>
      intro db j' h
      exact Or.inl ⟨h, by simp⟩
  | cons s rest ih =>
      intro db j' h
      have h' : j' ∈ start_jobs (start_job db now rd s) now rd rest := h
      rcases ih _ _ h' with ⟨hmem, hnid⟩ | hst
      · have hmem' : j' ∈ db.map (applyJobUpdate now rd s.id
            JobStatus.in_progress none none none) := by
          simpa [start_job, update_job_status] using hmem
        obtain ⟨j0, hj0, hj0e⟩ := List.mem_map.mp hmem'
        by_cases hid : j0.id = s.id
        · refine Or.inr ?_
          rw [← hj0e]
          exact applyJobUpdate_status now rd s.id JobStatus.in_progress
            none none none j0 hid
        · have heq : applyJobUpdate now rd s.id JobStatus.in_progress
              none none none j0 = j0 :=
            applyJobUpdate_not_target now rd s.id JobStatus.in_progress
              none none none j0 hid
          have hj'e : j' = j0 := by rw [← hj0e, heq]
          subst hj'e
          refine Or.inl ⟨hj0, ?_⟩
          simp only [List.map_cons, List.mem_cons]
          rintro (habs | habs)
          · exact hid habs
          · exact hnid habs
      · exact Or.inr hst

theorem claimed_not_reselected (now rd mc : Nat) (db S : List Job) (j' : Job)
    (hj' : j' ∈ get_pending_jobs (start_jobs db now rd S) now mc 0) :
    j'.id ∉ S.map Job.id := by
  intro habs
  have h1 := mem_get_pending_jobs hj'
  have h2 := (pendingWhere_iff now j').mp h1.2
  rcases mem_start_jobs now rd S db j' h1.1 with ⟨_, hnid⟩ | hst
  · exact hnid habs
  · rw [h2.1] at hst
    cases hst

/-- C1 counterexample: the claim is false on the code.  Selection
(`get_pending_jobs`, a plain SELECT with no row lock) and the transition to
in_progress (`_start_job_thread`, a separate UPDATE transaction) are not one
atomic claim, so in the interleaving where two scheduler processes both run
their SELECT before either runs its UPDATE, both callers receive the same
job id 1. -/
theorem C1_counterexample :
    selIds (runClaim 0 30 3 [cjobLate]
      [ClaimStep.selectA, ClaimStep.selectB, ClaimStep.markA,
       ClaimStep.markB]).selA = [1] ∧
    selIds (runClaim 0 30 3 [cjobLate]
      [ClaimStep.selectA, ClaimStep.selectB, ClaimStep.markA,
       ClaimStep.markB]).selB = [1] := by
  decide

/-- C1 (amended): claiming is not atomic, so the no-double-claim guarantee
only holds when the two callers do not interleave: in the sequential trace
where caller A selects and marks before caller B selects, no job id received
by A is received by B, because every row A marked reads in_progress and B's
SELECT filters on status pending. -/
theorem C1_sequential_claims_disjoint (db : List Job) (now rd mc : Nat) :
    ∀ i, i ∈ selIds (runClaim now rd mc db
        [ClaimStep.selectA, ClaimStep.markA, ClaimStep.selectB,
         ClaimStep.markB]).selA →
      i ∉ selIds (runClaim now rd mc db
        [ClaimStep.selectA, ClaimStep.markA, ClaimStep.selectB,
         ClaimStep.markB]).selB := by
  intro i hiA hiB
  have hA : (runClaim now rd mc db
      [ClaimStep.selectA, ClaimStep.markA, ClaimStep.selectB,
       ClaimStep.markB]).selA = some (get_pending_jobs db now mc 0) := rfl
  have hB : (runClaim now rd mc db
      [ClaimStep.selectA, ClaimStep.markA, ClaimStep.selectB,
       ClaimStep.markB]).selB =
      some (get_pending_jobs
        (start_jobs db now rd (get_pending_jobs db now mc 0)) now mc 0) := rfl
  rw [hA] at hiA
  rw [hB] at hiB
  simp only [selIds, Option.getD_some] at hiA hiB
  obtain ⟨j', hj', hj'i⟩ := List.mem_map.mp hiB
  have := claimed_not_reselected now rd mc db (get_pending_jobs db now mc 0)
    j' hj'
  rw [hj'i] at this
  exact this hiA

theorem errTruthy_some_of_ne {s : String} (h : s ≠ "") :
    errTruthy (some s) = true := by
  unfold errTruthy
  simpa using h

theorem applyJobUpdate_static (now rd jid : Nat) (st : JobStatus)
    (em : Option String) (et ct : Option Nat) (j : Job) :
    (applyJobUpdate now rd jid st em et ct j).priority = j.priority ∧
    (applyJobUpdate now rd jid st em et ct j).created_at = j.created_at ∧
    (applyJobUpdate now rd jid st em et ct j).max_retries = j.max_retries ∧
    (applyJobUpdate now rd jid st em et ct j).deleted_at = j.deleted_at := by
  unfold applyJobUpdate
  split
  · cases et <;> cases ct <;> split_ifs <;> simp_all
  · simp

theorem applyJobUpdate_exec (now rd jid : Nat) (st : JobStatus)
    (em : Option String) (et ct : Option Nat) (j : Job) (h : j.id = jid) :
    (applyJobUpdate now rd jid st em et ct j).execution_time_seconds =
      (match et with
       | some t => some t
       | none => j.execution_time_seconds) := by
  unfold applyJobUpdate
  simp only [h, if_true, if_pos]
  cases et <;> cases ct <;> split_ifs <;> rfl

theorem applyJobUpdate_contacts (now rd jid : Nat) (st : JobStatus)
    (em : Option String) (et ct : Option Nat) (j : Job) (h : j.id = jid) :
    (applyJobUpdate now rd jid st em et ct j).contacts_extracted =
      (match ct with
       | some c => some c
       | none => j.contacts_extracted) := by
  unfold applyJobUpdate
  simp only [h, if_true, if_pos]
  cases et <;> cases ct <;> split_ifs <;> rfl

theorem mem_update_status_target {db : List Job} {now rd jid : Nat}
    {st : JobStatus} {em : Option String} {et ct : Option Nat} {j' : Job}
    (h : j' ∈ update_job_status db now rd jid st em et ct)
    (hid : j'.id = jid) : j'.status = st := by
  obtain ⟨j0, _, hj0e⟩ := List.mem_map.mp h
  have hid0 : j0.id = jid := by
    rw [← hid, ← hj0e, applyJobUpdate_id]
  rw [← hj0e]
  exact applyJobUpdate_status now rd jid st em et ct j0 hid0

theorem job_worker_retry_eq (db : List Job) (now rd : Nat) (job : Job)
    (res : SpiderResult) (hf : res.success = false)
    (hr : job.retry_count < job.max_retries)
    (ht : hasTimeoutText (res.error.getD "") = false) :
    job_worker db now rd job res =
      update_job_status db now rd job.id JobStatus.pending
        (some (res.error.getD "")) res.execution_time none := by
  unfold job_worker
  simp [hf, hr, ht]

theorem job_worker_terminal_eq (db : List Job) (now rd : Nat) (job : Job)
    (res : SpiderResult) (hf : res.success = false)
    (hr : ¬ job.retry_count < job.max_retries) :
    job_worker db now rd job res =
      update_job_status db now rd job.id JobStatus.failed
        (some (res.error.getD "")) res.execution_time none := by
  unfold job_worker
  simp [hf, hr]

/-- A failing non-timeout spider outcome. -/
def c3Res : SpiderResult :=
  { success := false
    execution_time := some 5
    error := some "connection refused"
    contacts_count := none }

/-- Output of the embedded `_job_worker` on a first-attempt failure
("connection refused") of a job with retry_count 0 and max_retries 3. -/
def c3Out : List Job :=
  job_worker [{ cjobLate with status := JobStatus.in_progress }] 100 30
    cjobLate c3Res

/-- C3 counterexample: the claim is false on the code.  A failing dispatch
with retry_count 0 < max_retries 3 leaves the job with status pending and
last_error set, but retry_count stays 0 (not incremented) and next_retry_at
stays NULL (no backoff is scheduled): `update_job_status` performs its retry
bookkeeping only when the new status is the terminal 'failed', never on the
retry path. -/
theorem C3_counterexample :
    c3Out.map Job.status = [JobStatus.pending] ∧
    c3Out.map Job.last_error = [some "connection refused"] ∧
    c3Out.map Job.retry_count = [0] ∧
    c3Out.map Job.next_retry_at = [none] ∧
    c3Out.map Job.retry_count ≠ [cjobLate.retry_count + 1] := by
  decide

/-- C3 (amended): on a dispatch failure with retry_count below max_retries
and a non-timeout error, the job is set back to pending with last_error and
updated_at written, but retry_count and next_retry_at are left exactly as
they were (no increment, no backoff); rows with other ids are untouched.
The bookkeeping the original claim describes runs only on the terminal
'failed' branch, and even there the delay is the fixed configured
retry_delay_minutes, not an exponential function of the retry count. -/
theorem C3_amended_retry_frame (db : List Job) (now rd : Nat) (job : Job)
    (res : SpiderResult) (hf : res.success = false)
    (hr : job.retry_count < job.max_retries)
    (ht : hasTimeoutText (res.error.getD "") = false) :
    ∀ j', j' ∈ job_worker db now rd job res →
      ∃ j, j ∈ db ∧ j'.id = j.id ∧
        j'.retry_count = j.retry_count ∧
        j'.next_retry_at = j.next_retry_at ∧
        (j.id = job.id → j'.status = JobStatus.pending ∧
          j'.updated_at = now ∧
          (res.error.getD "" ≠ "" →
            j'.last_error = some (res.error.getD ""))) ∧
        (j.id ≠ job.id → j' = j) := by
  rw [job_worker_retry_eq db now rd job res hf hr ht]
  intro j' h
  obtain ⟨j0, hj0, hj0e⟩ := List.mem_map.mp h
  have hpf : JobStatus.pending ≠ JobStatus.failed := by decide
  refine ⟨j0, hj0, ?_, ?_, ?_, ?_, ?_⟩
  · rw [← hj0e, applyJobUpdate_id]
  · rw [← hj0e]
    exact (applyJobUpdate_retry_of_ne_failed now rd job.id JobStatus.pending
      (some (res.error.getD "")) res.execution_time none j0 hpf).1
  · rw [← hj0e]
    exact (applyJobUpdate_retry_of_ne_failed now rd job.id JobStatus.pending
      (some (res.error.getD "")) res.execution_time none j0 hpf).2
  · intro hid
    refine ⟨?_, ?_, ?_⟩
    · rw [← hj0e]
      exact applyJobUpdate_status now rd job.id JobStatus.pending
        (some (res.error.getD "")) res.execution_time none j0 hid
    · rw [← hj0e]
      exact applyJobUpdate_updated_at now rd job.id JobStatus.pending
        (some (res.error.getD "")) res.execution_time none j0 hid
    · intro hne
      rw [← hj0e]
      exact applyJobUpdate_last_error_of_truthy now rd job.id
        JobStatus.pending (some (res.error.getD "")) res.execution_time none
        j0 (errTruthy_some_of_ne hne) hid
  · intro hne
    rw [← hj0e]
    exact applyJobUpdate_not_target now rd job.id JobStatus.pending
      (some (res.error.getD "")) res.execution_time none j0 hne

/-- Witness for the amended C3 at a concrete failing first attempt. -/
theorem C3_amended_retry_frame_witness :
    ∃ j, j ∈ [{ cjobLate with status := JobStatus.in_progress }] ∧
      (c3Out.get ⟨0, by decide⟩).id = j.id ∧
      (c3Out.get ⟨0, by decide⟩).retry_count = j.retry_count ∧
      (c3Out.get ⟨0, by decide⟩).next_retry_at = j.next_retry_at ∧
      (j.id = cjobLate.id → (c3Out.get ⟨0, by decide⟩).status =
          JobStatus.pending ∧
        (c3Out.get ⟨0, by decide⟩).updated_at = 100 ∧
        (c3Res.error.getD "" ≠ "" →
          (c3Out.get ⟨0, by decide⟩).last_error =
            some (c3Res.error.getD ""))) ∧
      (j.id ≠ cjobLate.id → c3Out.get ⟨0, by decide⟩ = j) :=
  C3_amended_retry_frame [{ cjobLate with status := JobStatus.in_progress }]
    100 30 cjobLate c3Res (by decide) (by decide) (by decide)
    (c3Out.get ⟨0, by decide⟩) (List.get_mem c3Out 0 (by decide))

/-- A pending job that has exhausted its retries: retry_count 3 of
max_retries 3. -/
def cjobSpent : Job := { cjobStuck with retry_count := 3 }

/-- A failing outcome for the terminal case. -/
def c4Res : SpiderResult :=
  { success := false
    execution_time := some 5
    error := some "boom"
    contacts_count := none }

/-- Output of the embedded `_job_worker` on a terminal failure. -/
def c4Out : List Job :=
  job_worker [{ cjobSpent with status := JobStatus.in_progress }] 100 30
    cjobSpent c4Res

/-- C4 counterexample: the claim is false on the code in one respect.  On the
terminal failure the job does get status failed with last_error set and is
no longer claimable, but next_retry_at is not left untouched: the 'failed'
branch of `update_job_status` overwrites it with now plus the fixed retry
delay (and also increments retry_count). -/
theorem C4_counterexample :
    c4Out.map Job.status = [JobStatus.failed] ∧
    c4Out.map Job.last_error = [some "boom"] ∧
    c4Out.map Job.next_retry_at = [some 130] ∧
    cjobSpent.next_retry_at = none ∧
    c4Out.map Job.next_retry_at ≠ [cjobSpent.next_retry_at] ∧
    c4Out.map Job.retry_count = [4] := by
  decide

/-- C4 (amended): on a dispatch failure with retry_count at or above
max_retries, `update_job_status` sets status failed (terminal) with
last_error set, increments retry_count once more, and overwrites
next_retry_at with now plus the fixed retry delay (rather than leaving it
untouched); rows with other ids are unchanged, and from then on the job id
is never again returned by `get_pending_jobs`, whose WHERE clause keeps only
status pending. -/
theorem C4_amended_terminal (db : List Job) (now rd : Nat) (job : Job)
    (res : SpiderResult) (hf : res.success = false)
    (hr : ¬ job.retry_count < job.max_retries) :
    (∀ j', j' ∈ job_worker db now rd job res →
       ∃ j, j ∈ db ∧ j'.id = j.id ∧
         (j.id = job.id → j'.status = JobStatus.failed ∧
           j'.retry_count = j.retry_count + 1 ∧
           j'.next_retry_at = some (now + rd) ∧
           (res.error.getD "" ≠ "" →
             j'.last_error = some (res.error.getD ""))) ∧
         (j.id ≠ job.id → j' = j)) ∧
    (∀ now' mc run, job.id ∉
       (get_pending_jobs (job_worker db now rd job res) now' mc run).map
         Job.id) := by
  rw [job_worker_terminal_eq db now rd job res hf hr]
  constructor
  · intro j' h
    obtain ⟨j0, hj0, hj0e⟩ := List.mem_map.mp h
    refine ⟨j0, hj0, ?_, ?_, ?_⟩
    · rw [← hj0e, applyJobUpdate_id]
    · intro hid
      refine ⟨?_, ?_, ?_, ?_⟩
      · rw [← hj0e]
        exact applyJobUpdate_status now rd job.id JobStatus.failed
          (some (res.error.getD "")) res.execution_time none j0 hid
      · rw [← hj0e]
        exact (applyJobUpdate_retry_of_failed now rd job.id
          (some (res.error.getD "")) res.execution_time none j0 hid).1
      · rw [← hj0e]
        exact (applyJobUpdate_retry_of_failed now rd job.id
          (some (res.error.getD "")) res.execution_time none j0 hid).2
      · intro hne
        rw [← hj0e]
        exact applyJobUpdate_last_error_of_truthy now rd job.id
          JobStatus.failed (some (res.error.getD "")) res.execution_time
          none j0 (errTruthy_some_of_ne hne) hid
    · intro hne
      rw [← hj0e]
      exact applyJobUpdate_not_target now rd job.id JobStatus.failed
        (some (res.error.getD "")) res.execution_time none j0 hne
  · intro now' mc run habs
    obtain ⟨j', hj', hj'i⟩ := List.mem_map.mp habs
    have h1 := mem_get_pending_jobs hj'
    have hst := mem_update_status_target h1.1 hj'i
    have h2 := (pendingWhere_iff now' j').mp h1.2
    rw [h2.1] at hst
    cases hst

/-- Witness for the amended C4: the terminally failed job 1 is no longer
returned by any later poll. -/
theorem C4_amended_terminal_witness :
    cjobSpent.id ∉ (get_pending_jobs c4Out 200 3 0).map Job.id :=
  (C4_amended_terminal [{ cjobSpent with status := JobStatus.in_progress }]
    100 30 cjobSpent c4Res (by decide) (by decide)).2 200 3 0

/-- A job carrying the error text of an earlier failed attempt. -/
def cjobPrev : Job :=
  { cjobLate with status := JobStatus.in_progress,
                  last_error := some "earlier failure" }

/-- C10: the success-path UPDATE (`update_job_status` with status done and no
error message, as `_job_worker` issues it) writes only status, updated_at and
the optionally supplied execution time and contacts count; retry_count,
next_retry_at, last_error and all other columns are unchanged, rows with
other ids are untouched, and concretely the last_error text of an earlier
failed attempt survives a later success. -/
theorem C10_done_update_frame (db : List Job) (now rd jid : Nat)
    (et ct : Option Nat) :
    (∀ j', j' ∈ update_job_status db now rd jid JobStatus.done none et ct →
      ∃ j, j ∈ db ∧ j'.id = j.id ∧
        j'.retry_count = j.retry_count ∧
        j'.next_retry_at = j.next_retry_at ∧
        j'.last_error = j.last_error ∧
        j'.priority = j.priority ∧
        j'.created_at = j.created_at ∧
        j'.max_retries = j.max_retries ∧
        j'.deleted_at = j.deleted_at ∧
        (j.id = jid → j'.status = JobStatus.done ∧ j'.updated_at = now ∧
          j'.execution_time_seconds =
            (match et with
             | some t => some t
             | none => j.execution_time_seconds) ∧
          j'.contacts_extracted =
            (match ct with
             | some c => some c
             | none => j.contacts_extracted)) ∧
        (j.id ≠ jid → j' = j)) ∧
    (update_job_status [cjobPrev] 100 30 1 JobStatus.done none (some 12)
       (some 7)).map Job.last_error = [some "earlier failure"] := by
  constructor
  · intro j' h
    obtain ⟨j0, hj0, hj0e⟩ := List.mem_map.mp h
    have hdf : JobStatus.done ≠ JobStatus.failed := by decide
    refine ⟨j0, hj0, ?_, ?_, ?_, ?_, ?_, ?_, ?_, ?_, ?_, ?_⟩
    · rw [← hj0e, applyJobUpdate_id]
    · rw [← hj0e]
      exact (applyJobUpdate_retry_of_ne_failed now rd jid JobStatus.done
        none et ct j0 hdf).1
    · rw [← hj0e]
      exact (applyJobUpdate_retry_of_ne_failed now rd jid JobStatus.done
        none et ct j0 hdf).2
    · rw [← hj0e]
      exact applyJobUpdate_last_error_of_falsy now rd jid JobStatus.done
        none et ct j0 rfl
    · rw [← hj0e]
      exact (applyJobUpdate_static now rd jid JobStatus.done none et ct
        j0).1
    · rw [← hj0e]
      exact (applyJobUpdate_static now rd jid JobStatus.done none et ct
        j0).2.1
    · rw [← hj0e]
      exact (applyJobUpdate_static now rd jid JobStatus.done none et ct
        j0).2.2.1
    · rw [← hj0e]
      exact (applyJobUpdate_static now rd jid JobStatus.done none et ct
        j0).2.2.2
    · intro hid
      refine ⟨?_, ?_, ?_, ?_⟩
      · rw [← hj0e]
        exact applyJobUpdate_status now rd jid JobStatus.done none et ct
          j0 hid
      · rw [← hj0e]
        exact applyJobUpdate_updated_at now rd jid JobStatus.done none et
          ct j0 hid
      · rw [← hj0e]
        exact applyJobUpdate_exec now rd jid JobStatus.done none et ct j0
          hid
      · rw [← hj0e]
        exact applyJobUpdate_contacts now rd jid JobStatus.done none et ct
          j0 hid
    · intro hne
      rw [← hj0e]
      exact applyJobUpdate_not_target now rd jid JobStatus.done none et ct
        j0 hne
  · decide

/-- Witness for C10 at a concrete successful completion over a job that had
failed before. -/
theorem C10_done_update_frame_witness :
    ∃ j, j ∈ [cjobPrev] ∧
      ((update_job_status [cjobPrev] 100 30 1 JobStatus.done none (some 12)
          (some 7)).get ⟨0, by decide⟩).id = j.id ∧
      ((update_job_status [cjobPrev] 100 30 1 JobStatus.done none (some 12)
          (some 7)).get ⟨0, by decide⟩).retry_count = j.retry_count ∧
      ((update_job_status [cjobPrev] 100 30 1 JobStatus.done none (some 12)
          (some 7)).get ⟨0, by decide⟩).next_retry_at = j.next_retry_at ∧
      ((update_job_status [cjobPrev] 100 30 1 JobStatus.done none (some 12)
          (some 7)).get ⟨0, by decide⟩).last_error = j.last_error ∧
      ((update_job_status [cjobPrev] 100 30 1 JobStatus.done none (some 12)
          (some 7)).get ⟨0, by decide⟩).priority = j.priority ∧
      ((update_job_status [cjobPrev] 100 30 1 JobStatus.done none (some 12)
          (some 7)).get ⟨0, by decide⟩).created_at = j.created_at ∧
      ((update_job_status [cjobPrev] 100 30 1 JobStatus.done none (some 12)
          (some 7)).get ⟨0, by decide⟩).max_retries = j.max_retries ∧
      ((update_job_status [cjobPrev] 100 30 1 JobStatus.done none (some 12)
          (some 7)).get ⟨0, by decide⟩).deleted_at = j.deleted_at ∧
      (j.id = 1 →
        ((update_job_status [cjobPrev] 100 30 1 JobStatus.done none
            (some 12) (some 7)).get ⟨0, by decide⟩).status =
          JobStatus.done ∧
        ((update_job_status [cjobPrev] 100 30 1 JobStatus.done none
            (some 12) (some 7)).get ⟨0, by decide⟩).updated_at = 100 ∧
        ((update_job_status [cjobPrev] 100 30 1 JobStatus.done none
            (some 12) (some 7)).get ⟨0, by decide⟩).execution_time_seconds =
          (match (some 12 : Option Nat) with
           | some t => some t
           | none => j.execution_time_seconds) ∧
        ((update_job_status [cjobPrev] 100 30 1 JobStatus.done none
            (some 12) (some 7)).get ⟨0, by decide⟩).contacts_extracted =
          (match (some 7 : Option Nat) with
           | some c => some c
           | none => j.contacts_extracted)) ∧
      (j.id ≠ 1 →
        (update_job_status [cjobPrev] 100 30 1 JobStatus.done none (some 12)
          (some 7)).get ⟨0, by decide⟩ = j) :=
  (C10_done_update_frame [cjobPrev] 100 30 1 (some 12) (some 7)).1
    ((update_job_status [cjobPrev] 100 30 1 JobStatus.done none (some 12)
      (some 7)).get ⟨0, by decide⟩)
    (List.get_mem _ 0 (by decide))

/-! ## Claim support: pause control and circuit breaker -/

theorem pauseCycles_paused (fs : List (Option String)) :
    pauseCycles true fs = (true, List.replicate fs.length false) := by
  induction fs with
  | nil => rfl
  | cons f rest ih => simp [pauseCycles, pauseGate, ih, List.replicate_succ]

/-- C8: evaluation of the pause logic at the failing input.  Once one poll
cycle observes the durable flag true, the in-memory flag short-circuits every
later cycle before the durable flag is read, so after the flag is cleared in
durable storage claiming still never resumes (the in-memory flag stays true
and no cycle claims), for any number of cleared cycles; while the second and
third conjuncts show the intended behaviour of a single cycle: an unpaused
cycle seeing the flag set claims nothing, an unpaused cycle seeing it
cleared claims, but a cycle that starts in-memory-paused ignores the cleared
durable flag entirely. -/
theorem C8_resume_unreachable :
    (∀ k : Nat, pauseCycles false
        (some "true" :: List.replicate k (some "false")) =
      (true, false :: List.replicate k false)) ∧
    pauseGate false (some "true") = (true, false) ∧
    pauseGate false (some "false") = (false, true) ∧
    pauseGate true (some "false") = (true, false) := by
  refine ⟨?_, by decide, by decide, by decide⟩
  intro k
  have h1 : pauseGate false (some "true") = (true, false) := by decide
  simp [pauseCycles, h1, pauseCycles_paused]

theorem reportFailures_state (now mf cd : Nat) (hcd : 0 < cd) (k : Nat) :
    (reportFailures ⟨none, none⟩ now mf cd k).fails =
      (if k = 0 then none else some (k, now + cd)) ∧
    (reportFailures ⟨none, none⟩ now mf cd k).openUntil =
      (if 1 ≤ k ∧ mf ≤ k then some (now + cd) else none) := by
  induction k with
  | zero => simp [reportFailures]
  | succ n ih =>
      have hstep : reportFailures ⟨none, none⟩ now mf cd (n + 1) =
          report_result (reportFailures ⟨none, none⟩ now mf cd n) now false
            mf cd := rfl
      rw [hstep]
      unfold report_result record_failure open_cb
      rw [ih.1, ih.2]
      have hlt : now < now + cd := by omega
      by_cases hn : n = 0
      · subst hn
        simp [hlt]
        constructor
        · split_ifs <;> simp_all <;> omega
        · split_ifs <;> first | rfl | omega
      · simp [hn, hlt]
        constructor
        · split_ifs <;> simp_all <;> omega
        · split_ifs <;> first | rfl | omega

/-- The breaker state after five consecutive failures at instant 0 with
threshold 5 and cooldown 600. -/
def cbFive : Breaker := reportFailures ⟨none, none⟩ 0 5 600 5

/-- C5 counterexample: the claim is false on the code in its half-open
re-open clause.  Five failures (threshold 5) open the breaker for the whole
cooldown, and after the TTL the next attempt is allowed; but the single
failure at the moment the TTL has expired does NOT re-open the breaker:
the failure-counter key carries the same TTL and expired together with the
open marker, so the count restarts at 1 and `is_open` stays false. -/
theorem C5_counterexample :
    is_open cbFive 10 = true ∧
    is_open cbFive 599 = true ∧
    is_open cbFive 600 = false ∧
    is_open (report_result cbFive 600 false 5 600) 600 = false ∧
    (report_result cbFive 600 false 5 600).fails = some (1, 1200) := by
  decide

/-- C5 (amended): from a clean state, the breaker opens exactly when the
failure count reaches the threshold (one failure fewer leaves it closed),
reads open precisely until the cooldown TTL expires (after which the next
attempt is implicitly allowed), a success deletes the failure counter (and
only that); and a failure arriving once the cooldown has expired finds its
counter expired as well, so it restarts the count at 1 and leaves the
breaker un-reopened rather than re-opening it immediately. -/
theorem C5_amended_breaker (now mf cd t : Nat) (hmf : 1 ≤ mf)
    (hcd : 1 ≤ cd) :
    is_open (reportFailures ⟨none, none⟩ now mf cd mf) t =
      decide (t < now + cd) ∧
    (reportFailures ⟨none, none⟩ now mf cd (mf - 1)).openUntil = none ∧
    (∀ s : Breaker, (report_result s t true mf cd).fails = none ∧
       (report_result s t true mf cd).openUntil = s.openUntil) ∧
    (2 ≤ mf → now + cd ≤ t →
       is_open (report_result (reportFailures ⟨none, none⟩ now mf cd mf) t
         false mf cd) t = false ∧
       (report_result (reportFailures ⟨none, none⟩ now mf cd mf) t false
         mf cd).fails = some (1, t + cd)) := by
  have hspec := reportFailures_state now mf cd (by omega) mf
  refine ⟨?_, ?_, ?_, ?_⟩
  · unfold is_open
    rw [hspec.2]
    have : 1 ≤ mf ∧ mf ≤ mf := ⟨hmf, le_refl mf⟩
    simp [this]
  · rw [(reportFailures_state now mf cd (by omega) (mf - 1)).2]
    have : ¬ (1 ≤ mf - 1 ∧ mf ≤ mf - 1) := by omega
    simp [this]
  · intro s
    constructor <;> simp [report_result]
  · intro hmf2 ht
    have hfails := hspec.1
    have hopen := hspec.2
    have hne : ¬ mf = 0 := by omega
    rw [if_neg hne] at hfails
    unfold report_result
    rw [hfails]
    have hdead : ¬ t < now + cd := by omega
    simp only [hdead, if_false, Bool.false_eq_true, ite_false]
    unfold record_failure open_cb
    have h1 : ¬ (0 + 1 ≥ mf) := by omega
    simp only [ge_iff_le]
    rw [if_neg (by omega : ¬ mf ≤ 0 + 1)]
    constructor
    · unfold is_open
      rw [hopen]
      have : 1 ≤ mf ∧ mf ≤ mf := ⟨hmf, le_refl mf⟩
      simp [this, hdead]
    · rfl

/-- Witness for the amended C5 at threshold 5 and cooldown 600. -/
theorem C5_amended_breaker_witness :
    is_open (reportFailures ⟨none, none⟩ 0 5 600 5) 10 =
      decide ((10 : Nat) < 0 + 600) :=
  (C5_amended_breaker 0 5 600 10 (by decide) (by decide)).1

/-! ## Claims on the proxy engine -/

/-- A healthy default proxy row. -/
def baseProxy : ProxyRow :=
  { id := 1
    active := true
    priority := 1
    success_rate := none
    response_time_ms := none
    average_latency_ms := none
    last_used_at := none
    consecutive_failures := none
    cooldown_until := none
    circuit_breaker_status := CBStatus.closed
    circuit_breaker_next_attempt := none
    successful_requests := none
    failed_requests := none
    total_requests := none
    last_success_at := none
    last_failure_at := none }

/-- Closed breaker, low-preference priority 5. -/
def proxyClosedLowPrio : ProxyRow := { baseProxy with id := 1, priority := 5 }

/-- Half-open breaker, top priority 1. -/
def proxyHalfOpenTopPrio : ProxyRow :=
  { baseProxy with id := 2, priority := 1,
                   circuit_breaker_status := CBStatus.half_open }

/-- Ten proxies, of which the three with id divisible by 3 are cooling down
until instant 2000 (the future, relative to now = 1000). -/
def tenProxies : List ProxyRow :=
  (List.range 10).map fun i =>
    { baseProxy with
        id := i + 1
        priority := i + 1
        cooldown_until := if (i + 1) % 3 == 0 then some 2000 else none }

/-- C6 counterexample: the claim is false on the code in its ordering clause.
The ORDER BY of `fetch_active_proxies` leads with the breaker-status rank
(closed before half_open before the rest), which the claim omits: a closed
proxy with priority 5 is returned before a half-open proxy with priority 1,
while the claimed order (priority first) would list them the other way
round. -/
theorem C6_counterexample :
    (fetch_active_proxies [proxyClosedLowPrio, proxyHalfOpenTopPrio]
        100).map ProxyRow.id = [1, 2] ∧
    proxyClosedLowPrio.priority = 5 ∧
    proxyHalfOpenTopPrio.priority = 1 ∧
    (spec_fetch_candidates [proxyClosedLowPrio, proxyHalfOpenTopPrio]
        100).map ProxyRow.id = [2, 1] ∧
    (fetch_active_proxies [proxyClosedLowPrio, proxyHalfOpenTopPrio]
        100).map ProxyRow.id ≠
      (spec_fetch_candidates [proxyClosedLowPrio, proxyHalfOpenTopPrio]
        100).map ProxyRow.id := by
  decide

/-- C6 (amended): `fetch_active_proxies` returns exactly the rows passing its
WHERE clause (active, cooldown absent or past, and breaker not open or its
next-attempt instant already past), sorted by breaker-status rank first and
then priority ascending, success rate descending, latency ascending, least
recently used; in particular, of ten proxies of which three have
cooldown_until in the future it returns exactly the other seven. -/
theorem C6_amended_fetch (db : List ProxyRow) (now : Nat) :
    (∀ p, p ∈ fetch_active_proxies db now ↔
       p ∈ db ∧ selectableWhere now p = true) ∧
    List.Sorted proxyLe (fetch_active_proxies db now) ∧
    (fetch_active_proxies tenProxies 1000).map ProxyRow.id =
      [1, 2, 4, 5, 7, 8, 10] := by
  refine ⟨?_, ?_, by decide⟩
  · intro p
    constructor
    · intro h
      exact List.mem_filter.mp ((List.mem_insertionSort proxyLe).mp h)
    · intro h
      exact (List.mem_insertionSort proxyLe).mpr (List.mem_filter.mpr h)
  · exact List.sorted_insertionSort proxyLe _

/-- Witness for the amended C6 at a concrete pair of proxies. -/
theorem C6_amended_fetch_witness :
    proxyClosedLowPrio ∈
      fetch_active_proxies [proxyClosedLowPrio, proxyHalfOpenTopPrio] 100 ↔
    proxyClosedLowPrio ∈ [proxyClosedLowPrio, proxyHalfOpenTopPrio] ∧
      selectableWhere 100 proxyClosedLowPrio = true :=
  (C6_amended_fetch [proxyClosedLowPrio, proxyHalfOpenTopPrio] 100).1
    proxyClosedLowPrio

/-- A proxy one failure below the breaker threshold 5. -/
def proxyNearThreshold : ProxyRow :=
  { baseProxy with consecutive_failures := some 4 }

/-- C7 counterexample: the claim is false on the code in its cooldown
clause.  With threshold 5, a failure reported for a proxy whose
consecutive_failures is 4 brings the count to 5 — it crosses the threshold —
yet no cooldown window is set on the row: the CASE guard of the UPDATE reads
the OLD (pre-increment) count, 4, which is still below the threshold.  The
row-level cooldown is only set from the following failure on. -/
theorem C7_counterexample :
    (report_proxy_result proxyNearThreshold false none 100 5
        300).consecutive_failures = some 5 ∧
    (report_proxy_result proxyNearThreshold false none 100 5
        300).cooldown_until = none ∧
    proxyNearThreshold.consecutive_failures = some 4 := by
  decide

/-- C7 (amended): `report_proxy_result` on a success resets
consecutive_failures to 0, stamps last_success_at (last_used_at and the
row cooldown are untouched — last-used state is refreshed at selection time
instead), refreshes the latency only when one is supplied, and recomputes
success_rate from the pre-update counters; on a failure it increments
consecutive_failures by exactly one (a NULL count becomes 1), stamps
last_failure_at, and sets the row-level cooldown window only when the count
BEFORE this failure had already reached the threshold, leaving it unchanged
otherwise (also when the old count is NULL). -/
theorem C7_amended_report (p : ProxyRow) (rt : Option Nat)
    (now mf cd : Nat) :
    ((report_proxy_result p true rt now mf cd).consecutive_failures =
       some 0 ∧
     (report_proxy_result p true rt now mf cd).last_success_at = some now ∧
     (report_proxy_result p true rt now mf cd).last_used_at =
       p.last_used_at ∧
     (report_proxy_result p true rt now mf cd).cooldown_until =
       p.cooldown_until ∧
     (rt = none →
       (report_proxy_result p true rt now mf cd).response_time_ms =
         p.response_time_ms) ∧
     (∀ v, rt = some v →
       (report_proxy_result p true rt now mf cd).response_time_ms =
         some v) ∧
     (∀ t s, p.total_requests = some t → 0 < t →
       p.successful_requests = some s →
       (report_proxy_result p true rt now mf cd).success_rate =
         some (s, t))) ∧
    ((report_proxy_result p false rt now mf cd).consecutive_failures =
       some (p.consecutive_failures.getD 0 + 1) ∧
     (report_proxy_result p false rt now mf cd).last_failure_at =
       some now ∧
     (∀ c, p.consecutive_failures = some c → c < mf →
       (report_proxy_result p false rt now mf cd).cooldown_until =
         p.cooldown_until) ∧
     (∀ c, p.consecutive_failures = some c → mf ≤ c →
       (report_proxy_result p false rt now mf cd).cooldown_until =
         some (now + cd)) ∧
     (p.consecutive_failures = none →
       (report_proxy_result p false rt now mf cd).cooldown_until =
         p.cooldown_until)) := by
  constructor
  · refine ⟨by simp [report_proxy_result], by simp [report_proxy_result],
      by simp [report_proxy_result], by simp [report_proxy_result],
      ?_, ?_, ?_⟩
    · intro h
      simp [report_proxy_result, h]
    · intro v h
      simp [report_proxy_result, h]
    · intro t s ht htpos hs
      simp [report_proxy_result, ht, htpos, hs]
  · refine ⟨by simp [report_proxy_result], by simp [report_proxy_result],
      ?_, ?_, ?_⟩
    · intro c hc hlt
      simp [report_proxy_result, hc]
      omega
    · intro c hc hge
      simp [report_proxy_result, hc, hge]
    · intro hc
      simp [report_proxy_result, hc]

/-- Witness for the amended C7: a success on the near-threshold proxy resets
its failure count. -/
theorem C7_amended_report_witness :
    (report_proxy_result proxyNearThreshold true none 100 5
        300).consecutive_failures = some 0 :=
  (C7_amended_report proxyNearThreshold none 100 5 300).1.1

/-! ## Claim on URL normalization -/

theorem sortPairs_perm_eq {l1 l2 : List (List Char × List Char)}
    (h : l1.Perm l2) :
    List.insertionSort pairLe l1 = List.insertionSort pairLe l2 :=
  List.eq_of_perm_of_sorted
    ((List.perm_insertionSort pairLe l1).trans
      (h.trans (List.perm_insertionSort pairLe l2).symm))
    (List.sorted_insertionSort pairLe l1)
    (List.sorted_insertionSort pairLe l2)

/-- C9: URL normalization lower-cases scheme and host, sorts the query
pairs, strips the fragment and preserves the path verbatim, so two URLs
that differ only in query-parameter order or in scheme/netloc letter case
normalize to the same string; in particular the two spellings of the
example URL agree.  (The only port handling is that an absent scheme
defaults to http; an explicit port is carried through unchanged, equally on
both sides.) -/
theorem C9_normalize_invariance :
    (∀ s1 s2 : String, s1.data ≠ [] → s2.data ≠ [] →
       lowerChars (urlparse0 s1.data).scheme =
         lowerChars (urlparse0 s2.data).scheme →
       lowerChars (urlparse0 s1.data).netloc =
         lowerChars (urlparse0 s2.data).netloc →
       (urlparse0 s1.data).path = (urlparse0 s2.data).path →
       (parse_qsl (urlparse0 s1.data).query).Perm
         (parse_qsl (urlparse0 s2.data).query) →
       url_normalizeStr s1 = url_normalizeStr s2) ∧
    url_normalizeStr "HTTP://Example.COM:80/path?b=2&a=1" =
      url_normalizeStr "http://example.com:80/path?a=1&b=2" ∧
    (∀ u : UrlParts, (normalizeParts u).fragment = [] ∧
       (u.path ≠ [] → (normalizeParts u).path = u.path)) := by
  refine ⟨?_, by decide, ?_⟩
  · intro s1 s2 h1 h2 hsch hnet hpath hperm
    have key : url_normalize s1.data = url_normalize s2.data := by
      cases hd1 : s1.data with
      | nil => exact absurd hd1 h1
      | cons c1 cs1 =>
          cases hd2 : s2.data with
          | nil => exact absurd hd2 h2
          | cons c2 cs2 =>
              have hparts : normalizeParts (urlparse0 (c1 :: cs1)) =
                  normalizeParts (urlparse0 (c2 :: cs2)) := by
                rw [← hd1, ← hd2]
                unfold normalizeParts
                rw [hsch, hnet, hpath, sortPairs_perm_eq hperm]
              simp only [url_normalize]
              rw [hparts]
    unfold url_normalizeStr
    exact congrArg String.mk key
  · intro u
    refine ⟨rfl, ?_⟩
    intro h
    cases hu : u.path with
    | nil => exact absurd hu h
    | cons c cs => simp [normalizeParts, hu]

/-- Witness for C9: the invariance instantiated at the two spellings of the
example URL, whose parses differ exactly by query order and scheme/netloc
case. -/
theorem C9_normalize_invariance_witness :
    url_normalizeStr "HTTP://Example.COM:80/path?b=2&a=1" =
      url_normalizeStr "http://example.com:80/path?a=1&b=2" :=
  C9_normalize_invariance.1 "HTTP://Example.COM:80/path?b=2&a=1"
    "http://example.com:80/path?a=1&b=2" (by decide) (by decide)
    (by decide) (by decide) (by decide) (by decide)

/-- Witness for the amended C1: in the sequential trace over one eligible
job, caller A receives job 1 and caller B does not. -/
theorem C1_sequential_claims_disjoint_witness :
    (1 : Nat) ∈ selIds (runClaim 0 30 3 [cjobLate]
      [ClaimStep.selectA, ClaimStep.markA, ClaimStep.selectB,
       ClaimStep.markB]).selA ∧
    (1 : Nat) ∉ selIds (runClaim 0 30 3 [cjobLate]
      [ClaimStep.selectA, ClaimStep.markA, ClaimStep.selectB,
       ClaimStep.markB]).selB :=
  ⟨by decide, C1_sequential_claims_disjoint [cjobLate] 0 30 3 1 (by decide)⟩

/-- Witness for the amended C2: over one eligible job the head of the
selection is minimal. -/
theorem C2_amended_characterization_witness :
    ∃ h0, (get_pending_jobs [cjobEarly] 0 3 0).head? = some h0 ∧
      jobLe h0 cjobEarly :=
  (C2_amended_characterization [cjobEarly] 0 3 0 (by decide)).2.2.1
    cjobEarly (by decide) (by decide)
